import Mathlib

/-!
Verification of the Keyscore API search tool (`src/api.py`).

The Python module is shallowly embedded: records and JSON objects become
insertion-ordered association lists, the HTTP layer is represented by the
status-code handling of `KeyscoreAPI.search` / `KeyscoreAPI.count`, and the
multi-source fan-out loops (`search_all_sources`, `count_all_sources`) become
folds over the source catalog where each per-source call is an explicit
`Except ErrorKind` outcome.  Python exceptions caught by the fan-out loops
(including the `IndexError` raised by `types[0]` on an empty type list) are
modelled explicitly.
-/

namespace Keyscore

/-- Lookup in an insertion-ordered string-keyed mapping (Python `m.get(k)` /
`k in m` followed by `m[k]`). -/
def getAssoc {β : Type} (m : List (String × β)) (k : String) : Option β :=
  match m with
  | [] => none
  | (k', v) :: rest => if k' = k then some v else getAssoc rest k

/-- Python dict assignment `m[k] = v`: overwrite the value in place when the
key is present, otherwise append the new entry at the end. -/
def setAssoc {β : Type} (m : List (String × β)) (k : String) (v : β) :
    List (String × β) :=
  match m with
  | [] => [(k, v)]
  | (k', v') :: rest =>
    if k' = k then (k', v) :: rest else (k', v') :: setAssoc rest k v

/-- A breach record (`record` in api.py): an ordered field-name → value
mapping with no fixed schema. -/
abbrev Record := List (String × String)

/-- Field lookup on a record (`record.get(field)`). -/
def getField (r : Record) (k : String) : Option String := getAssoc r k

/-- Field assignment on a record (`record[field] = value`). -/
def setField (r : Record) (k : String) (v : String) : Record := setAssoc r k v

/-- The error cases raised by `KeyscoreAPI.search` and `KeyscoreAPI.count`
(api.py lines 77-91 and 122-132): one constructor per distinct `raise`. -/
inductive ErrorKind where
  | BadRequest
  | Unauthorized
  | PaymentRequired
  | Forbidden
  | ServerError
  | Unexpected (code : Nat)
  | Transport (msg : String)
deriving DecidableEq, Repr

/-- The message of the Python `Exception` raised for each error kind. -/
def ErrorKind.message : ErrorKind → String
  | .BadRequest => "Bad Request: Invalid request body"
  | .Unauthorized => "Unauthorized: Missing or invalid API key"
  | .PaymentRequired => "Payment Required: Insufficient credits"
  | .Forbidden => "Forbidden: Invalid request origin"
  | .ServerError => "Internal Server Error"
  | .Unexpected code => "Unexpected status code: " ++ toString code
  | .Transport msg => "Request failed: " ++ msg

/-- Status-code handling of `KeyscoreAPI.search` (api.py lines 75-88): the
decoded body is returned exactly for status 200, every other status raises. -/
def searchHandleResponse {α : Type} (status : Nat) (body : α) :
    Except ErrorKind α :=
  if status = 200 then .ok body
  else if status = 400 then .error .BadRequest
  else if status = 401 then .error .Unauthorized
  else if status = 402 then .error .PaymentRequired
  else if status = 403 then .error .Forbidden
  else if status = 500 then .error .ServerError
  else .error (.Unexpected status)

/-- Status-code handling of `KeyscoreAPI.count` (api.py lines 120-129): only
400, 401 and 402 have dedicated branches; every other non-200 status falls
through to the generic unexpected-status raise. -/
def countHandleResponse {α : Type} (status : Nat) (body : α) :
    Except ErrorKind α :=
  if status = 200 then .ok body
  else if status = 400 then .error .BadRequest
  else if status = 401 then .error .Unauthorized
  else if status = 402 then .error .PaymentRequired
  else .error (.Unexpected status)

/-- The static source catalog `self.all_sources` (api.py lines 28-30). -/
def all_sources : List String :=
  ["xkeyscore", "snusbase", "leakcheck", "hackcheck", "oathnet",
   "ghosint.leakosint", "ghosint.seon", "ghosint.breachvip",
   "osintdog.intelvault", "osintdog.breachbase", "osintdog.akula"]

/-- A decoded `200` response body of `POST /search`:
`{results: {databaseName: [Record, ...]}, size, took}`. -/
structure SearchResult where
  results : List (String × List Record)
  size : Nat
  took : Nat
deriving DecidableEq, Repr

/-- The test `record.get(field) in ['N/A', None, '']` of api.py lines
160/162/164: the field is absent, null, empty, or the `"N/A"` sentinel. -/
def needsFix (v : Option String) : Bool :=
  match v with
  | some s => s == "N/A" || s == ""
  | none => true

/-- The per-record "Fix N/A issue" chain of api.py lines 160-165, for a
non-empty type list with first element `t`. -/
def fixRecord1 (t term : String) (r : Record) : Record :=
  if (t == "email") && needsFix (getField r "email") then
    setField r "email" term
  else if (t == "url") && needsFix (getField r "url") then
    setField r "url" term
  else if (t == "username") && needsFix (getField r "username") then
    setField r "username" term
  else r

/-- Evaluation of `types[0]` inside the record loop: Python raises
`IndexError` when `types` is empty, otherwise the chain `fixRecord1` runs. -/
def fixRecord (types : List String) (term : String) (r : Record) :
    Except Unit Record :=
  match types with
  | [] => .error ()
  | t :: _ => .ok (fixRecord1 t term r)

/-- The record loop `for record in records` of api.py lines 159-165, fixing
each record of one database bucket; the first `IndexError` aborts the loop. -/
def fixRecords (types : List String) (term : String) :
    List Record → Except Unit (List Record)
  | [] => .ok []
  | r :: rs => do
    let r' ← fixRecord types term r
    let rs' ← fixRecords types term rs
    pure (r' :: rs')

/-- The source-prefixed bucket key `f"🔸{source}➤{db_name}"` of api.py
line 167. -/
def bucketKey (source db : String) : String :=
  "🔸" ++ source ++ "➤" ++ db

/-- The bucket loop `for db_name, records in result["results"].items()` of
api.py lines 157-167.  Each database's records are fixed and then assigned
into the aggregate bucket map; the boolean reports whether the loop raised
(an `IndexError` from `types[0]`), in which case buckets already assigned
stay assigned and the remaining ones are dropped. -/
def mergeLoop (types : List String) (term source : String) :
    List (String × List Record) → List (String × List Record) →
    List (String × List Record) × Bool
  | bs, [] => (bs, false)
  | bs, (db, records) :: rest =>
    match fixRecords types term records with
    | .ok fixed =>
      mergeLoop types term source (setAssoc bs (bucketKey source db) fixed) rest
    | .error _ => (bs, true)

/-- The mutable state of `search_all_sources` (api.py lines 139-140):
`all_results` (results / size / took), `successful_sources`, and the error
lines printed by the `except` handler, recorded as (source, message) pairs. -/
structure AggState where
  buckets : List (String × List Record)
  size : Nat
  took : Nat
  successful : Nat
  errors : List (String × String)
deriving DecidableEq, Repr

/-- Initial aggregate state (api.py lines 139-140). -/
def initAgg : AggState := ⟨[], 0, 0, 0, []⟩

/-- One iteration of the fan-out loop of `search_all_sources` (api.py lines
142-179): the `try` body processes one source's outcome, and the `except`
handler records the error and continues. -/
def processSource (types : List String) (term : String) (agg : AggState)
    (source : String) (outcome : Except ErrorKind SearchResult) : AggState :=
  match outcome with
  | .error e => { agg with errors := agg.errors ++ [(source, e.message)] }
  | .ok result =>
    if result.results.isEmpty then
      { agg with took := agg.took + result.took }
    else if result.size > 0 then
      match mergeLoop types term source agg.buckets result.results with
      | (bs, true) =>
        { agg with buckets := bs,
                   errors := agg.errors ++ [(source, "list index out of range")] }
      | (bs, false) =>
        { agg with buckets := bs,
                   size := agg.size + result.size,
                   took := agg.took + result.took,
                   successful := agg.successful + 1 }
    else
      { agg with took := agg.took + result.took }

/-- The loop body of the fan-out: perform the source's call (`outcomes`) and
process its outcome. -/
def sourceStep (outcomes : String → Except ErrorKind SearchResult)
    (types : List String) (term : String) (agg : AggState)
    (source : String) : AggState :=
  processSource types term agg source (outcomes source)

/-- The fan-out loop of `search_all_sources` over an arbitrary catalog; the
per-source call `self.search(...)` is abstracted as the `outcomes` map. -/
def runAcrossSources (catalog : List String)
    (outcomes : String → Except ErrorKind SearchResult)
    (types : List String) (term : String) : AggState :=
  catalog.foldl (sourceStep outcomes types term) initAgg

/-- Python method `KeyscoreAPI.search_all_sources` (api.py lines 134-182): the fan-out over
the fixed catalog `self.all_sources`. -/
def search_all_sources (outcomes : String → Except ErrorKind SearchResult)
    (types : List String) (term : String) : AggState :=
  runAcrossSources all_sources outcomes types term

/-- The aggregate state after the first `n` sources of the catalog have been
processed (the intermediate states of the `search_all_sources` loop). -/
def aggAfter (outcomes : String → Except ErrorKind SearchResult)
    (types : List String) (term : String) (n : Nat) : AggState :=
  runAcrossSources (all_sources.take n) outcomes types term

/-- Total record count over a bucket map: `Σ len(records)`. -/
def sumLens (m : List (String × List Record)) : Nat :=
  (m.map (fun p => p.2.length)).sum

/-- One iteration of the `count_all_sources` loop (api.py lines 427-437),
acting on the pair (total_count, source_counts); a successful call reads
`result.get('count', 0)`, a failing one records `0`. -/
def countStep (outcomes : String → Except ErrorKind (Option Nat))
    (st : Nat × List (String × Nat)) (source : String) :
    Nat × List (String × Nat) :=
  match outcomes source with
  | .ok body => (st.1 + body.getD 0, setAssoc st.2 source (body.getD 0))
  | .error _ => (st.1, setAssoc st.2 source 0)

/-- The dict returned by `count_all_sources` (api.py lines 439-443). -/
structure CountResult where
  total_count : Nat
  counts : List (String × Nat)
  took : Nat
deriving DecidableEq, Repr

/-- Python function `count_all_sources` (api.py lines 420-443): count fan-out over the fixed
catalog, with the per-source `api.count` call abstracted as `outcomes`
(`Option Nat` is the optional `count` field of the decoded body). -/
def count_all_sources (outcomes : String → Except ErrorKind (Option Nat)) :
    CountResult :=
  ⟨(all_sources.foldl (countStep outcomes) (0, [])).1,
   (all_sources.foldl (countStep outcomes) (0, [])).2, 0⟩

/-- The credit estimate rendered by `print_count_results` (api.py lines
387-392 and 411-416): `none` when the count is zero (no credit line is
printed), otherwise the number of credits quoted for retrieving all data. -/
def creditEstimate (count : Nat) : Option Nat :=
  if count > 0 then
    if count > 10000 then some (count / 10000 + 1) else some 1
  else none

/-- The filename sanitizer of `save_results_to_file` (api.py line 257):
`"".join(c for c in search_term if c.isalnum() or c in ('-', '_', '.'))`. -/
def sanitize (term : String) : String :=
  ⟨term.data.filter (fun c => c.isAlphanum || c == '-' || c == '_' || c == '.')⟩

/-- The output filename `f"{safe_term}-{search_type}-output.txt"` (api.py
line 258). -/
def outputFilename (term ty : String) : String :=
  sanitize term ++ "-" ++ ty ++ "-output.txt"

/-- The list `priority_fields` of `print_results` (api.py line 219). -/
def print_priority_fields : List String :=
  ["email", "login", "username", "user", "profile", "nick"]

/-- The list `password_fields` of `print_results` (api.py line 220). -/
def print_password_fields : List String := ["password", "pass", "pwd"]

/-- The list `url_fields` of `print_results` (api.py line 221). -/
def print_url_fields : List String := ["url", "website", "site", "domain"]

/-- The set `shown_fields = set(priority_fields + password_fields + url_fields)` of
`print_results` (api.py line 242), kept as the concatenated list. -/
def print_shown_fields : List String :=
  print_priority_fields ++ print_password_fields ++ print_url_fields

/-- One priority-group scan of `print_results` (api.py lines 224-239): the
first field of the group that is present, truthy and not `"N/A"` is printed
and the scan breaks. -/
def print_firstShown (r : Record) : List String → Option (String × String)
  | [] => none
  | f :: rest =>
    match getField r f with
    | some v =>
      if v != "" && v != "N/A" then some (f, v) else print_firstShown r rest
    | none => print_firstShown r rest

/-- Python `str.lower()`: lowercase the string character by character. -/
def strLower (s : String) : String := ⟨s.data.map Char.toLower⟩

/-- The remaining-fields pass of `print_results` (api.py lines 243-245):
every record entry whose lowercased name is outside `shown_fields` and whose
value is truthy and not `"N/A"`. -/
def print_remaining (r : Record) : List (String × String) :=
  r.filter (fun p =>
    !(print_shown_fields.contains (strLower p.1)) && p.2 != "" && p.2 != "N/A")

/-- The fields selected for one record by `print_results` (api.py lines
218-245), in print order: one field per priority group, then the remaining
fields. -/
def print_selectRecord (r : Record) : List (String × String) :=
  (print_firstShown r print_priority_fields).toList ++
  (print_firstShown r print_password_fields).toList ++
  (print_firstShown r print_url_fields).toList ++
  print_remaining r

/-- The list `priority_fields` of `save_results_to_file` (api.py line 300). -/
def save_priority_fields : List String :=
  ["email", "login", "username", "user", "profile", "nick"]

/-- The list `password_fields` of `save_results_to_file` (api.py line 301). -/
def save_password_fields : List String := ["password", "pass", "pwd"]

/-- The list `url_fields` of `save_results_to_file` (api.py line 302). -/
def save_url_fields : List String := ["url", "website", "site", "domain"]

/-- The set `shown_fields` of `save_results_to_file` (api.py line 323). -/
def save_shown_fields : List String :=
  save_priority_fields ++ save_password_fields ++ save_url_fields

/-- One priority-group scan of `save_results_to_file` (api.py lines
305-320). -/
def save_firstShown (r : Record) : List String → Option (String × String)
  | [] => none
  | f :: rest =>
    match getField r f with
    | some v =>
      if v != "" && v != "N/A" then some (f, v) else save_firstShown r rest
    | none => save_firstShown r rest

/-- The remaining-fields pass of `save_results_to_file` (api.py lines
324-326). -/
def save_remaining (r : Record) : List (String × String) :=
  r.filter (fun p =>
    !(save_shown_fields.contains (strLower p.1)) && p.2 != "" && p.2 != "N/A")

/-- The fields selected for one record by `save_results_to_file` (api.py
lines 299-326), in write order. -/
def save_selectRecord (r : Record) : List (String × String) :=
  (save_firstShown r save_priority_fields).toList ++
  (save_firstShown r save_password_fields).toList ++
  (save_firstShown r save_url_fields).toList ++
  save_remaining r

/-- Whether no selected line carries the field name `f`. -/
def noFieldNamed (f : String) (l : List (String × String)) : Bool :=
  l.all (fun p => p.1 != f)

/-- The aggregate state with the recorded error lines forgotten. -/
def eraseErrors (a : AggState) : AggState := { a with errors := [] }

/-- The two-part merge invariant: the running size equals the total record
count of the bucket map, and every bucket key comes from an
already-processed source. -/
def InvAgg (processed : List String) (a : AggState) : Prop :=
  a.size = sumLens a.buckets
  ∧ ∀ k ∈ a.buckets.map Prod.fst, ∃ s d, s ∈ processed ∧ k = bucketKey s d

/-- One successful source and ten failing ones, with an honest size field. -/
def c1okOutcomes : String → Except ErrorKind SearchResult :=
  fun s => if s = "snusbase" then .ok ⟨[("db", [[("a", "1")]])], 1, 2⟩
    else .error (.Transport "boom")

/-- A source whose response reports `size = 2` while carrying one record. -/
def c1badOutcomes : String → Except ErrorKind SearchResult :=
  fun s => if s = "xkeyscore" then .ok ⟨[("db", [[]])], 2, 0⟩
    else .error (.Transport "x")

/-- The count recorded for one source: the body's `count` (default 0) on
success, 0 on failure. -/
def countValueOf (outcomes : String → Except ErrorKind (Option Nat))
    (s : String) : Nat :=
  match outcomes s with
  | .ok body => body.getD 0
  | .error _ => 0

/-- An outcome assignment with one failing source (`leakcheck`). -/
def c7out : String → Except ErrorKind (Option Nat) :=
  fun s => if s = "leakcheck" then .error .ServerError else .ok (some 3)

/-! ## Theorems -/

/-- C4 counterexample: at count 20000 the code renders `20000 // 10000 + 1
= 3` credits, while the claimed `ceil(20000 / 10000)` is `2`. -/
theorem c4_counterexample :
    creditEstimate 20000 = some 3 ∧ (20000 + 9999) / 10000 = 2 := by
  decide

/-- C4 (amended): no credit line for count 0; 1 credit for `0 < c ≤ 10000`;
`c / 10000 + 1` credits for `c > 10000`, which agrees with `ceil(c / 10000)`
exactly when `c` is not a multiple of 10000 and is one more at exact
multiples (the rendered estimate is still 3 for `c = 25000`). -/
theorem c4_amended (c : Nat) :
    creditEstimate 0 = none
    ∧ (0 < c → c ≤ 10000 → creditEstimate c = some 1)
    ∧ (10000 < c → creditEstimate c = some (c / 10000 + 1))
    ∧ (10000 < c → ¬ (10000 ∣ c) → c / 10000 + 1 = (c + 9999) / 10000)
    ∧ (10000 < c → 10000 ∣ c → c / 10000 + 1 = (c + 9999) / 10000 + 1)
    ∧ creditEstimate 25000 = some 3 := by
  refine ⟨by decide, ?_, ?_, ?_, ?_, by decide⟩
  · intro h1 h2
    unfold creditEstimate
    rw [if_pos h1, if_neg (by omega : ¬ 20000 / 2 < c)]
  · intro h
    unfold creditEstimate
    rw [if_pos (by omega), if_pos h]
  · intro h hnd
    omega
  · intro h hd
    omega

/-- C4 witness: the amended estimate applied at the concrete count 20000. -/
theorem c4_witness : creditEstimate 20000 = some 3 :=
  (c4_amended 20000).2.2.1 (by decide)

/-- C5 counterexample: at status 403 `KeyscoreAPI.search` raises Forbidden
but `KeyscoreAPI.count` falls through to the unexpected-status raise, so the
count operation does not apply the same status-code mapping. -/
theorem c5_counterexample :
    searchHandleResponse 403 () = Except.error ErrorKind.Forbidden
    ∧ countHandleResponse 403 () = Except.error (ErrorKind.Unexpected 403)
    ∧ ErrorKind.Forbidden ≠ ErrorKind.Unexpected 403 :=
  ⟨rfl, rfl, by decide⟩

/-- C5 (amended): both operations return the decoded body exactly for status
200; search maps 400/401/402/403/500 to the dedicated error kinds and every
other status to Unexpected; count maps only 400/401/402 to the dedicated
kinds and every other non-200 status (403 and 500 included) to
Unexpected(code). -/
theorem c5_amended {α : Type} (status : Nat) (body : α) :
    (searchHandleResponse status body = .ok body ↔ status = 200)
    ∧ (countHandleResponse status body = .ok body ↔ status = 200)
    ∧ searchHandleResponse 400 body = .error .BadRequest
    ∧ searchHandleResponse 401 body = .error .Unauthorized
    ∧ searchHandleResponse 402 body = .error .PaymentRequired
    ∧ searchHandleResponse 403 body = .error .Forbidden
    ∧ searchHandleResponse 500 body = .error .ServerError
    ∧ (status ∉ ([200, 400, 401, 402, 403, 500] : List Nat) →
        searchHandleResponse status body = .error (.Unexpected status))
    ∧ countHandleResponse 400 body = .error .BadRequest
    ∧ countHandleResponse 401 body = .error .Unauthorized
    ∧ countHandleResponse 402 body = .error .PaymentRequired
    ∧ (status ∉ ([200, 400, 401, 402] : List Nat) →
        countHandleResponse status body = .error (.Unexpected status)) := by
  refine ⟨?_, ?_, rfl, rfl, rfl, rfl, rfl, ?_, rfl, rfl, rfl, ?_⟩
  · unfold searchHandleResponse
    split_ifs with h1 h2 h3 h4 h5 h6 <;> simp_all
  · unfold countHandleResponse
    split_ifs with h1 h2 h3 h4 <;> simp_all
  · intro hmem
    simp only [List.mem_cons, not_or] at hmem
    obtain ⟨h1, h2, h3, h4, h5, h6, -⟩ := hmem
    simp [searchHandleResponse, h1, h2, h3, h4, h5, h6]
  · intro hmem
    simp only [List.mem_cons, not_or] at hmem
    obtain ⟨h1, h2, h3, h4, -⟩ := hmem
    simp [countHandleResponse, h1, h2, h3, h4]

/-- C5 witness: the amended mapping applied at status 777. -/
theorem c5_witness :
    searchHandleResponse 777 () = Except.error (ErrorKind.Unexpected 777)
    ∧ countHandleResponse 777 () = Except.error (ErrorKind.Unexpected 777) :=
  ⟨(c5_amended 777 ()).2.2.2.2.2.2.2.1 (by decide),
   (c5_amended 777 ()).2.2.2.2.2.2.2.2.2.2.2 (by decide)⟩

/-- C9: the output filename is `sanitize(term) + "-" + type + "-output.txt"`,
the sanitizer keeps exactly the characters that are alphanumeric or one of
`-`, `_`, `.`, and `sanitize("user@site.com!") = "usersite.com"`. -/
theorem c9_filename (term ty : String) :
    outputFilename term ty = sanitize term ++ "-" ++ ty ++ "-output.txt"
    ∧ (∀ c : Char, c ∈ (sanitize term).data ↔
        (c ∈ term.data ∧ (c.isAlphanum = true ∨ c = '-' ∨ c = '_' ∨ c = '.')))
    ∧ sanitize "user@site.com!" = "usersite.com" := by
  refine ⟨rfl, ?_, by decide⟩
  intro c
  show c ∈ term.data.filter _ ↔ _
  rw [List.mem_filter]
  simp [Bool.or_eq_true, or_assoc]

lemma getAssoc_setAssoc_self {β : Type} (m : List (String × β)) (k : String)
    (v : β) : getAssoc (setAssoc m k v) k = some v := by
  induction m with
  | nil => simp [setAssoc, getAssoc]
  | cons p rest ih =>
    obtain ⟨k', v'⟩ := p
    by_cases h : k' = k
    · simp [setAssoc, getAssoc, h]
    · simp [setAssoc, getAssoc, h, ih]

lemma getAssoc_setAssoc_ne {β : Type} (m : List (String × β)) (k j : String)
    (v : β) (h : j ≠ k) : getAssoc (setAssoc m k v) j = getAssoc m j := by
  have hkj : ¬ k = j := fun hkj => h hkj.symm
  induction m with
  | nil => simp [setAssoc, getAssoc, hkj]
  | cons p rest ih =>
    obtain ⟨k', v'⟩ := p
    by_cases hk : k' = k
    · subst hk
      simp [setAssoc, getAssoc, hkj]
    · simp [setAssoc, getAssoc, hk, ih]

/-- C3: when the first query type is "email" (resp. "url", "username") and
the record's matching field is absent, empty or `"N/A"`, aggregation sets it
to the searched term and leaves every other field untouched; a record whose
matching field already has a non-empty non-sentinel value is left exactly as
it was. -/
theorem c3_normalization (t term : String) (r : Record)
    (ht : t = "email" ∨ t = "url" ∨ t = "username") :
    (needsFix (getField r t) = true →
      getField (fixRecord1 t term r) t = some term
      ∧ ∀ k, k ≠ t → getField (fixRecord1 t term r) k = getField r k)
    ∧ (needsFix (getField r t) = false → fixRecord1 t term r = r) := by
  obtain h | h | h := ht <;> subst h <;>
    refine ⟨fun hf => ?_, fun hf => ?_⟩
  · simp only [fixRecord1, hf, Bool.and_true, if_pos (by decide :
      (("email" : String) == "email") = true)]
    exact ⟨getAssoc_setAssoc_self r "email" term,
      fun k hk => getAssoc_setAssoc_ne r "email" k term hk⟩
  · simp [fixRecord1, hf, (by decide : (("email" : String) == "url") = false),
      (by decide : (("email" : String) == "username") = false)]
  · simp only [fixRecord1, hf, Bool.and_true, Bool.and_false,
      (by decide : (("url" : String) == "email") = false), Bool.false_and,
      if_neg, if_pos (by decide : (("url" : String) == "url") = true),
      Bool.false_eq_true, not_false_eq_true]
    exact ⟨getAssoc_setAssoc_self r "url" term,
      fun k hk => getAssoc_setAssoc_ne r "url" k term hk⟩
  · simp [fixRecord1, hf, (by decide : (("url" : String) == "email") = false),
      (by decide : (("url" : String) == "username") = false)]
  · simp only [fixRecord1, hf, Bool.and_true, Bool.and_false,
      (by decide : (("username" : String) == "email") = false),
      (by decide : (("username" : String) == "url") = false), Bool.false_and,
      if_neg, if_pos (by decide :
        (("username" : String) == "username") = true),
      Bool.false_eq_true, not_false_eq_true]
    exact ⟨getAssoc_setAssoc_self r "username" term,
      fun k hk => getAssoc_setAssoc_ne r "username" k term hk⟩
  · simp [fixRecord1, hf,
      (by decide : (("username" : String) == "email") = false),
      (by decide : (("username" : String) == "url") = false)]

/-- C3 witness: a record with a sentinel email field gets the searched
address, and its other field is untouched. -/
theorem c3_witness :
    getField (fixRecord1 "email" "a@b.com" [("email", "N/A"), ("x", "1")])
        "email" = some "a@b.com"
    ∧ getField (fixRecord1 "email" "a@b.com" [("email", "N/A"), ("x", "1")])
        "x" = some "1" := by
  have h := (c3_normalization "email" "a@b.com" [("email", "N/A"), ("x", "1")]
    (Or.inl rfl)).1 (by decide)
  exact ⟨h.1, (h.2 "x" (by decide)).trans (by decide)⟩

lemma firstShown_agree (r : Record) :
    ∀ fields, print_firstShown r fields = save_firstShown r fields := by
  intro fields
  induction fields with
  | nil => rfl
  | cons f rest ih =>
    simp only [print_firstShown, save_firstShown]
    cases h : getField r f with
    | none => simpa [h] using ih
    | some v =>
      simp only [h]
      split_ifs with hc
      · rfl
      · exact ih

lemma remaining_agree (r : Record) : print_remaining r = save_remaining r :=
  rfl

/-- Shared field-selection agreement between the console and file renderers:
both recursions are the same algorithm over the same group lists. -/
lemma selectRecord_agree (r : Record) :
    print_selectRecord r = save_selectRecord r := by
  simp only [print_selectRecord, save_selectRecord, firstShown_agree,
    remaining_agree,
    show print_priority_fields = save_priority_fields from rfl,
    show print_password_fields = save_password_fields from rfl,
    show print_url_fields = save_url_fields from rfl]

/-- C8: for every record, console rendering (`print_results`) and file
rendering (`save_results_to_file`) select exactly the same fields: the same
first match per priority group and the same skip decisions on the remaining
fields. -/
theorem c8_render_agree (r : Record) :
    print_selectRecord r = save_selectRecord r :=
  selectRecord_agree r

lemma firstShown_name_mem (r : Record) :
    ∀ (fields : List String) (f v : String),
      print_firstShown r fields = some (f, v) → f ∈ fields := by
  intro fields
  induction fields with
  | nil => intro f v h; exact absurd h (by simp [print_firstShown])
  | cons g rest ih =>
    intro f v h
    simp only [print_firstShown] at h
    split at h
    · split at h
      · simp only [Option.some.injEq, Prod.mk.injEq] at h
        obtain ⟨h1, -⟩ := h
        subst h1
        exact List.mem_cons_self g rest
      · exact List.mem_cons_of_mem g (ih f v h)
    · exact List.mem_cons_of_mem g (ih f v h)

lemma shown_fields_lower_fixed :
    ∀ x ∈ print_shown_fields, strLower x = x := by decide

/-- C10: a record field whose name differs only in letter case from a group
field name (the exact lowercase name being absent from the record) is never
rendered: the group scans match only the exact lowercase names, and the
remaining-fields pass excludes any name whose lowercased form is a group
field name — in both the console and the file output. -/
theorem c10_case_sensitivity (r : Record) (f v g : String)
    (hg : g ∈ print_shown_fields) (hfl : strLower f = g) (hne : f ≠ g)
    (hmem : (f, v) ∈ r) (hv1 : v ≠ "") (hv2 : v ≠ "N/A")
    (habs : getField r g = none) :
    noFieldNamed f (print_selectRecord r) = true
    ∧ noFieldNamed f (save_selectRecord r) = true := by
  have hfnotshown : f ∉ print_shown_fields := by
    intro hf
    exact hne ((shown_fields_lower_fixed f hf).symm.trans hfl)
  have hprint : noFieldNamed f (print_selectRecord r) = true := by
    rw [noFieldNamed, List.all_eq_true]
    rintro ⟨p1, p2⟩ hp
    rw [bne_iff_ne]
    intro hpf
    subst hpf
    simp only [print_selectRecord, List.mem_append] at hp
    rcases hp with ((hp | hp) | hp) | hp
    · rw [Option.mem_toList, Option.mem_def] at hp
      exact hfnotshown (List.mem_append_left _ (List.mem_append_left _
        (firstShown_name_mem r print_priority_fields p1 p2 hp)))
    · rw [Option.mem_toList, Option.mem_def] at hp
      exact hfnotshown (List.mem_append_left _ (List.mem_append_right _
        (firstShown_name_mem r print_password_fields p1 p2 hp)))
    · rw [Option.mem_toList, Option.mem_def] at hp
      exact hfnotshown (List.mem_append_right _
        (firstShown_name_mem r print_url_fields p1 p2 hp))
    · rw [print_remaining, List.mem_filter] at hp
      have hcontains : print_shown_fields.contains (strLower p1) = false := by
        have h2 := hp.2
        simp only [Bool.and_eq_true, Bool.not_eq_true'] at h2
        exact h2.1.1
      rw [hfl] at hcontains
      have hgc : print_shown_fields.contains g = true := by
        exact List.elem_eq_true_of_mem hg
      rw [hgc] at hcontains
      exact Bool.noConfusion hcontains
  refine ⟨hprint, ?_⟩
  rw [← selectRecord_agree]
  exact hprint

/-- C6 counterexample: a source call that succeeds with `size == 0` and
`took == 5` leaves the aggregate changed — its `took` is added to the
cumulative elapsed time even though no buckets were merged. -/
theorem c6_counterexample :
    processSource ["email"] "t" initAgg "xkeyscore"
        (.ok ⟨[], 0, 5⟩) ≠ initAgg
    ∧ (processSource ["email"] "t" initAgg "xkeyscore"
        (.ok ⟨[], 0, 5⟩)).took = 5 :=
  ⟨by decide, rfl⟩

/-- C6 (amended): on a success with `size == 0` (or an empty results map) no
buckets are added, `size` and `successfulSources` are unchanged, but the
result's `took` is still added to the cumulative elapsed time — `took`
accumulates on every successful call, not only those with `size > 0`. -/
theorem c6_amended (types : List String) (term : String) (agg : AggState)
    (s : String) (r : SearchResult)
    (h : r.results.isEmpty = true ∨ r.size = 0) :
    processSource types term agg s (.ok r) =
      { agg with took := agg.took + r.took } := by
  have hred : processSource types term agg s (.ok r) =
      if r.results.isEmpty then { agg with took := agg.took + r.took }
      else if r.size > 0 then
        match mergeLoop types term s agg.buckets r.results with
        | (bs, true) =>
          { agg with buckets := bs,
                     errors := agg.errors ++ [(s, "list index out of range")] }
        | (bs, false) =>
          { agg with buckets := bs, size := agg.size + r.size,
                     took := agg.took + r.took,
                     successful := agg.successful + 1 }
      else { agg with took := agg.took + r.took } := rfl
  rw [hred]
  rcases h with h | h
  · rw [if_pos h]
  · by_cases he : r.results.isEmpty = true
    · rw [if_pos he]
    · rw [if_neg he, if_neg (by omega : ¬ r.size > 0)]

/-- C6 witness: the amended frame property at a concrete zero-size success
whose results map is non-empty. -/
theorem c6_witness :
    processSource ["email"] "t" initAgg "s"
        (.ok ⟨[("db", [[("a", "b")]])], 0, 7⟩) =
      { initAgg with took := initAgg.took + 7 } :=
  c6_amended ["email"] "t" initAgg "s" ⟨[("db", [[("a", "b")]])], 0, 7⟩
    (Or.inr rfl)

lemma eraseErrors_buckets (a : AggState) :
    (eraseErrors a).buckets = a.buckets := rfl

lemma eraseErrors_size (a : AggState) : (eraseErrors a).size = a.size := rfl

lemma eraseErrors_took (a : AggState) : (eraseErrors a).took = a.took := rfl

lemma eraseErrors_successful (a : AggState) :
    (eraseErrors a).successful = a.successful := rfl

lemma processSource_core (types : List String) (term s : String)
    (o : Except ErrorKind SearchResult) :
    ∀ a b : AggState, eraseErrors a = eraseErrors b →
      eraseErrors (processSource types term a s o)
        = eraseErrors (processSource types term b s o) := by
  rintro ⟨ab, asz, atk, asu, ae⟩ ⟨bb, bsz, btk, bsu, be⟩ h
  simp only [eraseErrors, AggState.mk.injEq, and_true] at h
  obtain ⟨h1, h2, h3, h4⟩ := h
  subst h1; subst h2; subst h3; subst h4
  cases o with
  | error e => rfl
  | ok r =>
    by_cases hE : r.results.isEmpty = true
    · simp [processSource, eraseErrors, hE]
    · by_cases hS : r.size > 0
      · cases hml : mergeLoop types term s ab r.results with
        | mk bs' flag =>
          cases flag <;> simp [processSource, eraseErrors, hE, hS, hml]
      · simp [processSource, eraseErrors, hE, hS]

lemma run_core (outcomes : String → Except ErrorKind SearchResult)
    (types : List String) (term : String) :
    ∀ (l : List String) (a b : AggState), eraseErrors a = eraseErrors b →
      eraseErrors (l.foldl (sourceStep outcomes types term) a)
        = eraseErrors (l.foldl (sourceStep outcomes types term) b) := by
  intro l
  induction l with
  | nil => intro a b h; exact h
  | cons s rest ih =>
    intro a b h
    exact ih _ _ (processSource_core types term s (outcomes s) a b h)

lemma processSource_errors_sublist (types : List String) (term s : String)
    (o : Except ErrorKind SearchResult) (a : AggState) :
    a.errors.Sublist (processSource types term a s o).errors := by
  cases o with
  | error e => exact List.sublist_append_left _ _
  | ok r =>
    by_cases hE : r.results.isEmpty = true
    · simp [processSource, hE]
    · by_cases hS : r.size > 0
      · cases hml : mergeLoop types term s a.buckets r.results with
        | mk bs' flag =>
          cases flag <;> simp [processSource, hE, hS, hml]
      · simp [processSource, hE, hS]

lemma run_errors_sublist (outcomes : String → Except ErrorKind SearchResult)
    (types : List String) (term : String) :
    ∀ (l : List String) (a : AggState),
      a.errors.Sublist ((l.foldl (sourceStep outcomes types term) a)).errors := by
  intro l
  induction l with
  | nil => intro a; exact List.Sublist.refl _
  | cons s rest ih =>
    intro a
    exact (processSource_errors_sublist types term s (outcomes s) a).trans
      (ih (sourceStep outcomes types term a s))

/-- C2: for every catalog containing a source `X` whose call fails with any
error kind, the fan-out records the error for `X`, excludes it from the
successful-source count, leaves every other source's merged buckets (and the
size/took totals) exactly as they are without `X`, and returns normally (the
fold is total — no exception escapes the loop). -/
theorem c2_failure_isolation (pre post : List String) (X : String)
    (outcomes : String → Except ErrorKind SearchResult)
    (types : List String) (term : String) (e : ErrorKind)
    (hX : outcomes X = .error e) :
    (runAcrossSources (pre ++ X :: post) outcomes types term).buckets
        = (runAcrossSources (pre ++ post) outcomes types term).buckets
    ∧ (runAcrossSources (pre ++ X :: post) outcomes types term).size
        = (runAcrossSources (pre ++ post) outcomes types term).size
    ∧ (runAcrossSources (pre ++ X :: post) outcomes types term).successful
        = (runAcrossSources (pre ++ post) outcomes types term).successful
    ∧ (runAcrossSources (pre ++ X :: post) outcomes types term).took
        = (runAcrossSources (pre ++ post) outcomes types term).took
    ∧ (X, e.message) ∈
        (runAcrossSources (pre ++ X :: post) outcomes types term).errors := by
  have hfull : runAcrossSources (pre ++ X :: post) outcomes types term
      = post.foldl (sourceStep outcomes types term)
          (sourceStep outcomes types term
            (pre.foldl (sourceStep outcomes types term) initAgg) X) := by
    unfold runAcrossSources
    rw [List.foldl_append, List.foldl_cons]
  have hrest : runAcrossSources (pre ++ post) outcomes types term
      = post.foldl (sourceStep outcomes types term)
          (pre.foldl (sourceStep outcomes types term) initAgg) := by
    unfold runAcrossSources
    rw [List.foldl_append]
  have hXstep : sourceStep outcomes types term
      (pre.foldl (sourceStep outcomes types term) initAgg) X
      = { pre.foldl (sourceStep outcomes types term) initAgg with
          errors := (pre.foldl (sourceStep outcomes types term) initAgg).errors
            ++ [(X, e.message)] } := by
    unfold sourceStep
    rw [hX]
    rfl
  have hcore := run_core outcomes types term post _ _
    (show eraseErrors (sourceStep outcomes types term
        (pre.foldl (sourceStep outcomes types term) initAgg) X)
      = eraseErrors (pre.foldl (sourceStep outcomes types term) initAgg)
      by rw [hXstep]; rfl)
  have hmem1 : (X, e.message) ∈ (sourceStep outcomes types term
      (pre.foldl (sourceStep outcomes types term) initAgg) X).errors := by
    rw [hXstep]
    exact List.mem_append_right _ (List.mem_singleton_self _)
  have hb := congrArg AggState.buckets hcore
  have hsz := congrArg AggState.size hcore
  have hsu := congrArg AggState.successful hcore
  have htk := congrArg AggState.took hcore
  rw [eraseErrors_buckets, eraseErrors_buckets] at hb
  rw [eraseErrors_size, eraseErrors_size] at hsz
  rw [eraseErrors_successful, eraseErrors_successful] at hsu
  rw [eraseErrors_took, eraseErrors_took] at htk
  refine ⟨?_, ?_, ?_, ?_, ?_⟩
  · rw [hfull, hrest]; exact hb
  · rw [hfull, hrest]; exact hsz
  · rw [hfull, hrest]; exact hsu
  · rw [hfull, hrest]; exact htk
  · rw [hfull]
    exact (run_errors_sublist outcomes types term post _).mem hmem1

/-- C2 witness: a one-source catalog whose only source fails. -/
theorem c2_witness :
    (runAcrossSources ([] ++ "a" :: []) (fun _ => .error .ServerError)
        ["email"] "t").buckets
      = (runAcrossSources ([] ++ [])
          (fun _ => .error .ServerError) ["email"] "t").buckets
    ∧ ("a", ErrorKind.ServerError.message) ∈
        (runAcrossSources ([] ++ "a" :: []) (fun _ => .error .ServerError)
          ["email"] "t").errors :=
  ⟨(c2_failure_isolation [] [] "a" (fun _ => .error .ServerError)
      ["email"] "t" .ServerError rfl).1,
   (c2_failure_isolation [] [] "a" (fun _ => .error .ServerError)
      ["email"] "t" .ServerError rfl).2.2.2.2⟩

lemma str_data_append (a b : String) : (a ++ b).data = a.data ++ b.data := by
  obtain ⟨la⟩ := a
  obtain ⟨lb⟩ := b
  rfl

lemma str_ext {a b : String} (h : a.data = b.data) : a = b := by
  obtain ⟨la⟩ := a
  obtain ⟨lb⟩ := b
  exact congrArg String.mk h

lemma setAssoc_fresh {β : Type} (m : List (String × β)) (k : String) (v : β)
    (h : k ∉ m.map Prod.fst) : setAssoc m k v = m ++ [(k, v)] := by
  induction m with
  | nil => rfl
  | cons p rest ih =>
    obtain ⟨k', v'⟩ := p
    simp only [List.map_cons, List.mem_cons] at h
    push_neg at h
    rw [show setAssoc ((k', v') :: rest) k v =
      if k' = k then (k', v) :: rest else (k', v') :: setAssoc rest k v
      from rfl]
    rw [if_neg (fun he => h.1 he.symm), ih h.2]
    rfl

lemma sep_inj : ∀ (s1 s2 d1 d2 : List Char), '➤' ∉ s1 → '➤' ∉ s2 →
    s1 ++ '➤' :: d1 = s2 ++ '➤' :: d2 → s1 = s2 ∧ d1 = d2 := by
  intro s1
  induction s1 with
  | nil =>
    intro s2 d1 d2 h1 h2 heq
    cases s2 with
    | nil => simpa using heq
    | cons c cs =>
      simp only [List.nil_append, List.cons_append, List.cons.injEq] at heq
      exact absurd (List.mem_cons.mpr (Or.inl heq.1)) h2
  | cons c cs ih =>
    intro s2 d1 d2 h1 h2 heq
    cases s2 with
    | nil =>
      simp only [List.cons_append, List.nil_append, List.cons.injEq] at heq
      exact absurd (List.mem_cons.mpr (Or.inl heq.1.symm)) h1
    | cons c' cs' =>
      simp only [List.cons_append, List.cons.injEq] at heq
      obtain ⟨hc, hrest⟩ := heq
      have h1' : '➤' ∉ cs := fun h => h1 (List.mem_cons_of_mem c h)
      have h2' : '➤' ∉ cs' := fun h => h2 (List.mem_cons_of_mem c' h)
      obtain ⟨hs, hd⟩ := ih cs' d1 d2 h1' h2' hrest
      exact ⟨by rw [hc, hs], hd⟩

lemma bucketKey_data (s d : String) :
    (bucketKey s d).data = '🔸' :: (s.data ++ '➤' :: d.data) := by
  show ((("🔸" ++ s) ++ "➤") ++ d).data = _
  rw [str_data_append, str_data_append, str_data_append]
  rw [show ("🔸" : String).data = ['🔸'] from rfl,
    show ("➤" : String).data = ['➤'] from rfl]
  simp

lemma bucketKey_inj (s1 d1 s2 d2 : String) (h1 : '➤' ∉ s1.data)
    (h2 : '➤' ∉ s2.data) (heq : bucketKey s1 d1 = bucketKey s2 d2) :
    s1 = s2 ∧ d1 = d2 := by
  have hdata := congrArg String.data heq
  rw [bucketKey_data, bucketKey_data] at hdata
  simp only [List.cons.injEq, true_and] at hdata
  obtain ⟨hs, hd⟩ := sep_inj s1.data s2.data d1.data d2.data h1 h2 hdata
  exact ⟨str_ext hs, str_ext hd⟩

lemma all_sources_nodup : all_sources.Nodup := by decide

lemma all_sources_sep : ∀ s ∈ all_sources, '➤' ∉ s.data := by decide

lemma fixRecords_cons_ok (t : String) (ts : List String) (term : String) :
    ∀ rs : List Record, fixRecords (t :: ts) term rs
      = .ok (rs.map (fixRecord1 t term)) := by
  intro rs
  induction rs with
  | nil => rfl
  | cons r rest ih =>
    show (fixRecord (t :: ts) term r >>= fun r' =>
      fixRecords (t :: ts) term rest >>= fun rs' => pure (r' :: rs')) = _
    rw [show fixRecord (t :: ts) term r = Except.ok (fixRecord1 t term r)
      from rfl, ih]
    rfl

lemma sumLens_append (m1 m2 : List (String × List Record)) :
    sumLens (m1 ++ m2) = sumLens m1 + sumLens m2 := by
  simp [sumLens]

lemma sumLens_mapFix (t term source : String)
    (items : List (String × List Record)) :
    sumLens (items.map (fun p =>
      (bucketKey source p.1, p.2.map (fixRecord1 t term)))) = sumLens items := by
  simp [sumLens, List.map_map, Function.comp_def, List.length_map]

lemma mergeLoop_closed (t : String) (ts : List String) (term source : String) :
    ∀ (items bs : List (String × List Record)),
      (∀ db ∈ items.map Prod.fst, bucketKey source db ∉ bs.map Prod.fst) →
      (items.map (fun p => bucketKey source p.1)).Nodup →
      mergeLoop (t :: ts) term source bs items
        = (bs ++ items.map (fun p =>
            (bucketKey source p.1, p.2.map (fixRecord1 t term))), false) := by
  intro items
  induction items with
  | nil => intro bs _ _; simp [mergeLoop]
  | cons p rest ih =>
    obtain ⟨db, records⟩ := p
    intro bs hfr hnd
    simp only [mergeLoop, fixRecords_cons_ok]
    rw [setAssoc_fresh bs (bucketKey source db) _
      (hfr db (by simp))]
    rw [ih (bs ++ [(bucketKey source db, records.map (fixRecord1 t term))])
      ?_ (List.nodup_cons.mp (by simpa using hnd)).2]
    · simp
    · intro db' hdb'
      simp only [List.map_append, List.mem_append, List.map_cons, List.map_nil,
        List.mem_singleton, not_or]
      constructor
      · exact hfr db' (by simp [hdb'])
      · intro hkey
        have hhead : bucketKey source db ∉ rest.map
            (fun p => bucketKey source p.1) :=
          (List.nodup_cons.mp (by simpa using hnd)).1
        apply hhead
        rw [← hkey]
        obtain ⟨q, hq, hq'⟩ := List.mem_map.mp hdb'
        exact List.mem_map.mpr ⟨q, hq, by rw [hq']⟩

lemma InvAgg.weaken {processed processed' : List String} {a : AggState}
    (hsub : ∀ s ∈ processed, s ∈ processed') (h : InvAgg processed a) :
    InvAgg processed' a := by
  refine ⟨h.1, fun k hk => ?_⟩
  obtain ⟨s, d, hs, hd⟩ := h.2 k hk
  exact ⟨s, d, hsub s hs, hd⟩

lemma processSource_inv (outcomes : String → Except ErrorKind SearchResult)
    (t : String) (ts : List String) (term : String)
    (hok : ∀ s r, outcomes s = .ok r →
      r.size = sumLens r.results ∧ (r.results.map Prod.fst).Nodup)
    (processed : List String) (s : String) (a : AggState)
    (hsep_s : '➤' ∉ s.data)
    (hsep_p : ∀ x ∈ processed, '➤' ∉ x.data)
    (hnotp : s ∉ processed)
    (hInv : InvAgg processed a) :
    InvAgg (processed ++ [s]) (sourceStep outcomes (t :: ts) term a s) := by
  have hmono : ∀ x ∈ processed, x ∈ processed ++ [s] :=
    fun x hx => List.mem_append_left _ hx
  unfold sourceStep
  cases ho : outcomes s with
  | error e => exact InvAgg.weaken hmono hInv
  | ok r =>
    obtain ⟨hsz, hndk⟩ := hok s r ho
    by_cases hE : r.results.isEmpty = true
    · have : processSource (t :: ts) term a s (.ok r)
          = { a with took := a.took + r.took } := by
        simp [processSource, hE]
      rw [this]
      exact InvAgg.weaken hmono hInv
    · by_cases hS : r.size > 0
      · have hfr : ∀ db ∈ r.results.map Prod.fst,
            bucketKey s db ∉ a.buckets.map Prod.fst := by
          intro db _ hkey
          obtain ⟨s', d', hs', hk⟩ := hInv.2 _ hkey
          have := bucketKey_inj s db s' d' hsep_s (hsep_p s' hs') hk
          exact hnotp (this.1 ▸ hs')
        have hndnew : (r.results.map (fun p => bucketKey s p.1)).Nodup := by
          have h2 : ((r.results.map Prod.fst).map (bucketKey s)).Nodup := by
            refine hndk.map ?_
            intro d1 d2 h
            exact (bucketKey_inj s d1 s d2 hsep_s hsep_s h).2
          simpa [List.map_map, Function.comp_def] using h2
        have hml := mergeLoop_closed t ts term s r.results a.buckets hfr hndnew
        have hred : processSource (t :: ts) term a s (.ok r)
            = { a with
                buckets := a.buckets ++ r.results.map (fun p =>
                  (bucketKey s p.1, p.2.map (fixRecord1 t term))),
                size := a.size + r.size,
                took := a.took + r.took,
                successful := a.successful + 1 } := by
          simp [processSource, hE, hS, hml]
        rw [hred]
        constructor
        · show a.size + r.size = sumLens (a.buckets ++ _)
          rw [sumLens_append, sumLens_mapFix, hInv.1, hsz]
        · intro k hk
          simp only [List.map_append, List.mem_append] at hk
          rcases hk with hk | hk
          · obtain ⟨s', d', hs', hd'⟩ := hInv.2 k hk
            exact ⟨s', d', hmono s' hs', hd'⟩
          · simp only [List.map_map, List.mem_map] at hk
            obtain ⟨q, hq, hq'⟩ := hk
            exact ⟨s, q.1, List.mem_append_right _ (List.mem_singleton_self s),
              hq'.symm⟩
      · have : processSource (t :: ts) term a s (.ok r)
            = { a with took := a.took + r.took } := by
          simp [processSource, hE, hS]
        rw [this]
        exact InvAgg.weaken hmono hInv

lemma run_inv (outcomes : String → Except ErrorKind SearchResult)
    (t : String) (ts : List String) (term : String)
    (hok : ∀ s r, outcomes s = .ok r →
      r.size = sumLens r.results ∧ (r.results.map Prod.fst).Nodup) :
    ∀ (cat processed : List String) (a : AggState),
      (processed ++ cat).Nodup →
      (∀ s ∈ processed ++ cat, '➤' ∉ s.data) →
      InvAgg processed a →
      InvAgg (processed ++ cat)
        (cat.foldl (sourceStep outcomes (t :: ts) term) a) := by
  intro cat
  induction cat with
  | nil => intro processed a _ _ h; simpa using h
  | cons s rest ih =>
    intro processed a hnd hsep hInv
    rw [List.foldl_cons]
    have hassoc : processed ++ s :: rest = (processed ++ [s]) ++ rest := by
      simp
    have hstep : InvAgg (processed ++ [s])
        (sourceStep outcomes (t :: ts) term a s) := by
      refine processSource_inv outcomes t ts term hok processed s a
        (hsep s (by simp)) (fun x hx => hsep x (by simp [hx])) ?_ hInv
      have hdisj := List.disjoint_of_nodup_append hnd
      intro hs
      exact hdisj hs (List.mem_cons_self s rest)
    have := ih (processed ++ [s]) (sourceStep outcomes (t :: ts) term a s)
      (by rw [← hassoc]; exact hnd) (by rw [← hassoc]; exact hsep) hstep
    rw [hassoc]
    exact this

/-- C1 (amended): provided the query has at least one type and every
successful per-source result reports a `size` equal to the total number of
records in its buckets (with distinct database names), then after each merge
— i.e. after any prefix of the catalog — the aggregate satisfies
`size == Σ len(records)` over all merged buckets, and so does the final
result of `search_all_sources`. -/
theorem c1_size_invariant (outcomes : String → Except ErrorKind SearchResult)
    (types : List String) (term : String) (hty : types ≠ [])
    (hok : ∀ s r, outcomes s = .ok r →
      r.size = sumLens r.results ∧ (r.results.map Prod.fst).Nodup) :
    (∀ n, (aggAfter outcomes types term n).size
        = sumLens (aggAfter outcomes types term n).buckets)
    ∧ (search_all_sources outcomes types term).size
        = sumLens (search_all_sources outcomes types term).buckets := by
  cases types with
  | nil => exact absurd rfl hty
  | cons t ts =>
    have hmain : ∀ n, InvAgg (all_sources.take n)
        (aggAfter outcomes (t :: ts) term n) := by
      intro n
      have hnd : ([] ++ all_sources.take n).Nodup := by
        rw [List.nil_append]
        exact List.Nodup.sublist (List.take_sublist n all_sources)
          all_sources_nodup
      have hsep : ∀ s ∈ [] ++ all_sources.take n, '➤' ∉ s.data := by
        intro s hs
        rw [List.nil_append] at hs
        exact all_sources_sep s (List.take_subset n all_sources hs)
      have hinit : InvAgg [] initAgg := by
        refine ⟨rfl, ?_⟩
        intro k hk
        simp [initAgg] at hk
      have h := run_inv outcomes t ts term hok (all_sources.take n) [] initAgg
        hnd hsep hinit
      rw [List.nil_append] at h
      exact h
    refine ⟨fun n => (hmain n).1, ?_⟩
    have h := (hmain all_sources.length).1
    have heq : aggAfter outcomes (t :: ts) term all_sources.length
        = search_all_sources outcomes (t :: ts) term := by
      unfold aggAfter search_all_sources
      rw [List.take_length]
    rw [heq] at h
    exact h

/-- C1 witness: the amended invariant at a concrete outcome assignment. -/
theorem c1_witness :
    (search_all_sources c1okOutcomes ["email"] "t").size
      = sumLens (search_all_sources c1okOutcomes ["email"] "t").buckets := by
  refine (c1_size_invariant c1okOutcomes ["email"] "t" (by decide) ?_).2
  intro s r h
  unfold c1okOutcomes at h
  by_cases hs : s = "snusbase"
  · rw [if_pos hs] at h
    obtain rfl := Except.ok.inj h
    decide
  · rw [if_neg hs] at h
    exact Except.noConfusion h

/-- C1 counterexample: the code adds the server-reported `size` without
checking it against the actual record count, so a per-source outcome whose
reported size is 2 with a single record yields an aggregate with `size = 2`
but only one record across all merged buckets. -/
theorem c1_counterexample :
    (search_all_sources c1badOutcomes ["email"] "a@b.com").size = 2
    ∧ sumLens (search_all_sources c1badOutcomes ["email"] "a@b.com").buckets
        = 1
    ∧ (2 : Nat) ≠ 1 :=
  ⟨rfl, rfl, by decide⟩

lemma count_fold_closed (outcomes : String → Except ErrorKind (Option Nat)) :
    ∀ (cat : List String) (t : Nat) (m : List (String × Nat)),
      cat.Nodup → (∀ s ∈ cat, s ∉ m.map Prod.fst) →
      cat.foldl (countStep outcomes) (t, m)
        = (t + (cat.map (countValueOf outcomes)).sum,
           m ++ cat.map (fun s => (s, countValueOf outcomes s))) := by
  intro cat
  induction cat with
  | nil => intro t m _ _; simp
  | cons s rest ih =>
    intro t m hnd hfr
    have hs : s ∉ m.map Prod.fst := hfr s (List.mem_cons_self s rest)
    have hstep : countStep outcomes (t, m) s
        = (t + countValueOf outcomes s, m ++ [(s, countValueOf outcomes s)]) := by
      unfold countStep countValueOf
      cases h : outcomes s with
      | ok body => simp [h, setAssoc_fresh m s _ hs]
      | error e => simp [h, setAssoc_fresh m s _ hs]
    rw [List.foldl_cons, hstep,
      ih (t + countValueOf outcomes s) (m ++ [(s, countValueOf outcomes s)])
        (List.nodup_cons.mp hnd).2 ?_]
    · simp [add_assoc]
    · intro x hx
      simp only [List.map_append, List.mem_append, List.map_cons,
        List.map_nil, List.mem_singleton]
      rintro (hxm | hxs)
      · exact hfr x (List.mem_cons_of_mem s hx) hxm
      · subst hxs
        exact (List.nodup_cons.mp hnd).1 hx

lemma getAssoc_map_self (f : String → Nat) :
    ∀ (cat : List String) (s : String), s ∈ cat →
      getAssoc (cat.map (fun x => (x, f x))) s = some (f s) := by
  intro cat
  induction cat with
  | nil => intro s h; cases h
  | cons c rest ih =>
    intro s h
    by_cases hc : c = s
    · subst hc; simp [getAssoc]
    · rcases List.mem_cons.mp h with h' | h'
      · exact absurd h'.symm hc
      · simp [getAssoc, hc, ih s h']

/-- C7: over any per-source outcomes, `count_all_sources` satisfies
`total_count == Σ counts.values()`, and a source whose call fails is
recorded with count 0 (the loop continues past it and still returns every
source). -/
theorem c7_count_invariant
    (outcomes : String → Except ErrorKind (Option Nat)) :
    (count_all_sources outcomes).total_count
        = ((count_all_sources outcomes).counts.map Prod.snd).sum
    ∧ ∀ s e, s ∈ all_sources → outcomes s = .error e →
        getAssoc (count_all_sources outcomes).counts s = some 0 := by
  have hclosed := count_fold_closed outcomes all_sources 0 [] (by decide)
    (by intro s _ h; cases h)
  constructor
  · unfold count_all_sources
    rw [hclosed]
    simp only [List.nil_append, List.map_map, Nat.zero_add]
    rw [show (Prod.snd ∘ fun s : String => (s, countValueOf outcomes s))
      = countValueOf outcomes from rfl]
  · intro s e hs he
    unfold count_all_sources
    rw [hclosed]
    simp only [List.nil_append]
    rw [getAssoc_map_self (countValueOf outcomes) all_sources s hs]
    unfold countValueOf
    rw [he]

/-- C7 witness: with one failing source (`leakcheck`), its recorded count
is 0. -/
theorem c7_witness :
    getAssoc (count_all_sources c7out).counts "leakcheck" = some 0 :=
  (c7_count_invariant c7out).2 "leakcheck" .ServerError (by decide) rfl

/-- C10 witness: a record carrying only a capitalized `"Email"` field has
that field suppressed in both renderings. -/
theorem c10_witness :
    noFieldNamed "Email" (print_selectRecord [("Email", "x")]) = true
    ∧ noFieldNamed "Email" (save_selectRecord [("Email", "x")]) = true :=
  c10_case_sensitivity [("Email", "x")] "Email" "x" "email"
    (by decide) (by decide) (by decide) (by decide) (by decide) (by decide)
    (by decide)

end Keyscore
